import Mathlib

/-!
Shallow embedding of the Pipe composition manager (src/unnamed/part_000,
class `Pipe`) and the Setting engine (src/Setting.js, class `Setting`).

JavaScript values are modelled by the inductive type `JSValue`; numbers are
modelled as integers (the claims under study do not involve fractional or
NaN arithmetic), objects are modelled by their identity (a `Nat` tag), and
strict equality (`===`/`!==`) is decidable equality on `JSValue`.

Brick objects are modelled by their identity (`Nat`). The `Brick` and
`PipeView` classes themselves are not under src/; the operations the Pipe
consumes from them are modelled from the spec where needed and marked so.
-/

/-- Model of a JavaScript runtime value (floats excluded; `vObj` is a
non-primitive object identified by reference identity). -/
inductive JSValue where
  | vBool : Bool → JSValue
  | vNum : Int → JSValue
  | vStr : String → JSValue
  | vNull : JSValue
  | vUndefined : JSValue
  | vObj : Nat → JSValue
deriving DecidableEq, Repr

/-- JavaScript `typeof` on the modelled values (`typeof null` is "object"). -/
def typeofJS : JSValue → String
  | .vBool _ => "boolean"
  | .vNum _ => "number"
  | .vStr _ => "string"
  | .vNull => "object"
  | .vUndefined => "undefined"
  | .vObj _ => "object"

/-- JavaScript truthiness of the modelled values. -/
def truthyJS : JSValue → Bool
  | .vBool b => b
  | .vNum n => n != 0
  | .vStr s => s != ""
  | .vNull => false
  | .vUndefined => false
  | .vObj _ => true

/-! ## Setting (src/Setting.js)

The mutable fields `_name`, `_value`, `_valid`, `_delegate` and the three
callback slots become a state record. The delegate is an object reference,
modelled by identity (`Option Nat`, `none` = null). The source passes the
setting itself as first argument to the callbacks; the callbacks are
modelled as functions of the raw value alone (none of the claims involves
a callback that inspects the setting object). -/

structure Setting where
  name : String
  value : JSValue
  valid : Bool
  delegate : Option Nat
  validateValueCallback : Option (JSValue → Bool)
  filterValueCallback : Option (JSValue → JSValue)

/-- Constructor argument object `spec` of `new Setting(name, spec)`;
an absent `spec.value` is the JS value `undefined`. -/
structure SettingSpec where
  value : JSValue
  validateValue : Option (JSValue → Bool)
  filterValue : Option (JSValue → JSValue)

/-- `constructor (name, spec = {})` of src/Setting.js:
`this._value = spec.value || null` (JS `||`: the value if truthy, else
null), `this._valid = true`, `this._delegate = null`. -/
def Setting.construct (name : String) (spec : SettingSpec) : Setting :=
  { name := name
    value := if truthyJS spec.value then spec.value else JSValue.vNull
    valid := true
    delegate := none
    validateValueCallback := spec.validateValue
    filterValueCallback := spec.filterValue }

/-- `validateValue(rawValue)`: runs the callback when supplied, otherwise
generic Settings accept any value. -/
def Setting.validateValue (s : Setting) (rawValue : JSValue) : Bool :=
  match s.validateValueCallback with
  | some f => f rawValue
  | none => true

/-- `filterValue(rawValue)`: runs the callback when supplied, otherwise
generic Settings do not filter. -/
def Setting.filterValue (s : Setting) (rawValue : JSValue) : JSValue :=
  match s.filterValueCallback with
  | some f => f rawValue
  | none => rawValue

/-- `setValue(rawValue, sender = null)` of src/Setting.js. Returns the new
state together with the notification sent to the delegate (`some v` models
the call `delegate.settingValueDidChange(this, v)`, `none` = no call).
Branches follow the source: set `_valid` from validation; when invalid,
store the raw value and return; when the filtered value strictly equals
the stored one, return without storing; otherwise store and notify the
delegate when one is set and it differs from `sender`. -/
def Setting.setValue (s : Setting) (rawValue : JSValue) (sender : Option Nat) :
    Setting × Option JSValue :=
  if s.validateValue rawValue = false then
    ({ s with valid := false, value := rawValue }, none)
  else if s.value = s.filterValue rawValue then
    ({ s with valid := true }, none)
  else if s.delegate.isSome && s.delegate != sender then
    ({ s with valid := true, value := s.filterValue rawValue },
      some (s.filterValue rawValue))
  else
    ({ s with valid := true, value := s.filterValue rawValue }, none)

/-- `serializeValue()` of src/Setting.js: throws unless `typeof` the current
value is boolean, number or string; otherwise returns the value. The state
is read only, never written. -/
def Setting.serializeValue (s : Setting) : Except String JSValue :=
  if typeofJS s.value != "boolean" && typeofJS s.value != "number" &&
      typeofJS s.value != "string" then
    Except.error ("Generic Settings can only serialize boolean, number and string values safely. Found value type " ++ typeofJS s.value ++ ".")
  else
    Except.ok s.value

/-- Claim-side predicate: the value is of runtime type boolean, number or
string. -/
def JSValue.isPrimitiveJS : JSValue → Bool
  | .vBool _ => true
  | .vNum _ => true
  | .vStr _ => true
  | _ => false

/-! ## Pipe (src/unnamed/part_000)

Bricks are object references, modelled by identity (`Nat`). The Pipe view
is the `PipeView` record below; `view = none` models `this._view === null`.
-/

/-- The Pipe view surface. `children` holds the subview identities in
order. Modelled from the spec: the `PipeView` class (src/View/Pipe) is not
under src/; the spec lists it as an external collaborator constructible
with no arguments whose child list the Pipe maintains. -/
structure PipeView where
  children : List Nat
deriving DecidableEq, Repr

/-- Modelled from the spec: `addSubview(view)` of the View collaborator
(not under src/) adds the given subview to the container; with no position
argument in its interface, it appends at the end of the child list. -/
def PipeView.addSubview (v : PipeView) (subview : Nat) : PipeView :=
  { children := v.children ++ [subview] }

/-- Modelled from the spec: `removeSubview(view)` of the View collaborator
(not under src/) removes the given subview from the child list. -/
def PipeView.removeSubview (v : PipeView) (subview : Nat) : PipeView :=
  { children := v.children.erase subview }

/-- Modelled from the spec: `Brick.getView()` (Brick class not under src/)
returns the brick's own view object; each brick owns one view, identified
here by the brick's identity. -/
def Brick.getViewId (b : Nat) : Nat := b

/-- Modelled from the spec: `Brick.serialize()` (Brick class not under
src/) returns the brick's serialized record, opaque to the Pipe; modelled
as the brick identity. -/
def Brick.serialize (b : Nat) : Nat := b

/-- Modelled from the spec: static `Brick.extract(data)` (Brick class not
under src/) reconstructs a brick from its serialized record; for
extractable bricks it succeeds and inverts `Brick.serialize`. -/
def Brick.extract (d : Nat) : Nat := d

/-- State of a `Pipe` instance: `_bricks`, `_title`, `_description`,
`_view`. -/
structure Pipe where
  bricks : List Nat
  title : Option String
  description : Option String
  view : Option PipeView
deriving DecidableEq, Repr

/-- `constructor ()`: empty brick list, null title, description and view. -/
def Pipe.empty : Pipe :=
  { bricks := [], title := none, description := none, view := none }

/-- `getView()`: memoized view access; when `_view` is null it is created
by `createView()` (`new PipeView()`, empty child list) and stored. Returns
the possibly updated pipe together with the view. -/
def Pipe.getView (p : Pipe) : Pipe × PipeView :=
  match p.view with
  | some v => (p, v)
  | none =>
      let v : PipeView := { children := [] }
      ({ p with view := some v }, v)

/-- Claim-side helper: the child list of the view, empty when no view has
been materialized. -/
def Pipe.viewChildren (p : Pipe) : List Nat :=
  match p.view with
  | some v => v.children
  | none => []

/-- JavaScript `Array.prototype.splice` start-index normalization: a
negative index counts from the end (clamped at 0), a nonnegative one is
clamped at the length. -/
def spliceStart (len : Nat) (index : Int) : Nat :=
  if index < 0 then ((len : Int) + index).toNat else min index.toNat len

/-- `arr.splice(index, 0, ...items)`: insert `items` at the normalized
start position. -/
def spliceInsert (l : List α) (index : Int) (items : List α) : List α :=
  let s := spliceStart l.length index
  l.take s ++ items ++ l.drop s

/-- `arr.splice(index, 1)`: delete one element at the normalized start
position (no element when the position is at or past the end). -/
def spliceRemoveOne (l : List α) (index : Int) : List α :=
  let s := spliceStart l.length index
  l.take s ++ l.drop (s + 1)

/-- JavaScript indexed read `arr[i]`: `some` element for an integer index
inside the array, otherwise undefined (`none`). -/
def jsGetElem (l : List α) (i : Int) : Option α :=
  if 0 ≤ i then l[i.toNat]? else none

/-- `Array.prototype.indexOf`: index of the first occurrence, `-1` when
absent. -/
def indexOfJS : List Nat → Nat → Int
  | [], _ => -1
  | x :: xs, b =>
      if x = b then 0
      else
        let r := indexOfJS xs b
        if r = -1 then -1 else r + 1

/-- Body of the `forEach` in `insertBrick` for one inserted brick:
`brick.setPipe(this)` (mutates the brick only, invisible in this state),
then `this.getView() && this.getView().addSubview(brick.getView())`.
`getView()` never returns null — it creates and memoizes the view — so the
conjunct always proceeds to `addSubview`. -/
def Pipe.addSubviewStep (p : Pipe) (b : Nat) : Pipe :=
  let pv := p.getView
  { pv.1 with view := some (pv.2.addSubview (Brick.getViewId b)) }

/-- `insertBrick (index, ...bricks)`: splice the bricks into `_bricks` at
the normalized index, then run the per-brick forEach body. -/
def Pipe.insertBrick (p : Pipe) (index : Int) (bricks : List Nat) : Pipe :=
  let p1 := { p with bricks := spliceInsert p.bricks index bricks }
  bricks.foldl Pipe.addSubviewStep p1

/-- `addBrick (...bricks)`: `this.insertBrick.apply(this, [-1].concat(bricks))`. -/
def Pipe.addBrick (p : Pipe) (bricks : List Nat) : Pipe :=
  p.insertBrick (-1) bricks

/-- Argument of `removeBrick`: a Brick object or a numeric index. -/
inductive BrickOrIndex where
  | brick : Nat → BrickOrIndex
  | index : Int → BrickOrIndex
deriving DecidableEq, Repr

/-- The map step of `removeBrick`: a Brick argument becomes
`this._bricks.indexOf(brick)` (`-1` when absent), an index argument passes
through. -/
def Pipe.resolveElement (p : Pipe) (e : BrickOrIndex) : Int :=
  match e with
  | .brick b => indexOfJS p.bricks b
  | .index i => i

/-- Model of `Array.prototype.sort((a, b) => b - a)`: numeric descending
order. On integer lists any correct sort produces the same result, so the
standard insertion sort models it. -/
def sortDesc (l : List Int) : List Int :=
  l.insertionSort (fun a b => b ≤ a)

/-- One iteration of the removal forEach:
`const brick = this._bricks[index]` — when the index does not address an
element this is `undefined` and the following `brick.setPipe(null)` raises
a TypeError; otherwise the brick is spliced out and
`this.getView() && this.getView().removeSubview(brick.getView())` runs
(again, `getView()` is always truthy). -/
def Pipe.removeStep (p : Pipe) (index : Int) : Except String Pipe :=
  match jsGetElem p.bricks index with
  | none => Except.error "TypeError: Cannot read property setPipe of undefined"
  | some brick =>
      let p1 := { p with bricks := spliceRemoveOne p.bricks index }
      let pv := p1.getView
      Except.ok { pv.1 with view := some (pv.2.removeSubview (Brick.getViewId brick)) }

/-- The forEach over the processed index list; a raised TypeError aborts
the iteration. -/
def Pipe.removeLoop : Pipe → List Int → Except String Pipe
  | p, [] => Except.ok p
  | p, i :: rest => do
      let p1 ← p.removeStep i
      Pipe.removeLoop p1 rest

/-- `removeBrick (...elements)`: map bricks to indexes, filter out the
`-1` "not found" indexes, sort descending, remove each. -/
def Pipe.removeBrick (p : Pipe) (elements : List BrickOrIndex) : Except String Pipe :=
  let idxs := (elements.map p.resolveElement).filter (fun i => i != -1)
  p.removeLoop (sortDesc idxs)

/-- The structured record produced by `serialize()` and consumed by
`extract(data)`. `bricks = none` models `data.bricks` not being an array. -/
structure PipeData where
  title : Option String
  description : Option String
  bricks : Option (List Nat)
deriving DecidableEq, Repr

/-- `serialize()`: `{ title, description, bricks: map serialize }`. -/
def Pipe.serialize (p : Pipe) : PipeData :=
  { title := p.title
    description := p.description
    bricks := some (p.bricks.map Brick.serialize) }

/-- Static `extract (data)` of src/unnamed/part_000: throws when
`data.bricks` is not an array; otherwise maps `Brick.extract` over it and
then executes `pipe.add.apply(pipe, bricks)`. The `Pipe` class declares no
member named `add` (its insertion methods are `addBrick`/`insertBrick`),
so that member access evaluates to `undefined` and reading `.apply` on it
raises a TypeError before title and description are set. -/
def Pipe.extract (data : PipeData) : Except String Pipe :=
  match data.bricks with
  | none => Except.error "Error: Cannot extract bricks from structured data."
  | some bricksData =>
      let bs := bricksData.map Brick.extract
      let _pipe := Pipe.empty
      let _bricks := bs
      Except.error "TypeError: pipe.add is not a function"

/-- Claim-side helper: keep the elements of `l` whose absolute position
(starting at `k`) is not a member of the removal index list `is`. -/
def keepNotIdx (is : List Int) : Nat → List Nat → List Nat
  | _, [] => []
  | k, x :: xs =>
      if (k : Int) ∈ is then keepNotIdx is (k + 1) xs
      else x :: keepNotIdx is (k + 1) xs

/-! ## Concrete fixtures used by the claim witnesses -/

/-- Concrete Setting for the C6 witness: stored value 0, delegate set,
no callbacks. -/
def exSetting6 : Setting :=
  { name := "s", value := JSValue.vNum 0, valid := true, delegate := some 3,
    validateValueCallback := none, filterValueCallback := none }

/-- Concrete Setting for the C7 witness: stored value 0, delegate object 3,
no callbacks. -/
def exSetting7 : Setting :=
  { name := "s", value := JSValue.vNum 0, valid := true, delegate := some 3,
    validateValueCallback := none, filterValueCallback := none }

/-- Concrete Setting for the C8 witness: a validator that rejects every
value. -/
def exSetting8 : Setting :=
  { name := "s", value := JSValue.vNum 1, valid := true, delegate := some 3,
    validateValueCallback := some (fun _ => false), filterValueCallback := none }

/-- Concrete Setting with a primitive value for the C9 witness. -/
def exSetting9a : Setting :=
  { name := "s", value := JSValue.vNum 5, valid := true, delegate := none,
    validateValueCallback := none, filterValueCallback := none }

/-- Concrete Setting with a non-primitive (null) value for the C9 witness. -/
def exSetting9b : Setting :=
  { name := "s", value := JSValue.vNull, valid := true, delegate := none,
    validateValueCallback := none, filterValueCallback := none }

/-- Constructor spec with a falsy default value and a validator that would
reject it, for the C10 witness. -/
def exSpec10 : SettingSpec :=
  { value := JSValue.vBool false, validateValue := some (fun _ => false),
    filterValue := none }


/-! ## Claim theorems: serialization round trip and structural bugs -/

/-- C1: the round-trip claim fails on the code. `Pipe.extract` executes
`pipe.add.apply(pipe, bricks)`, but `Pipe` declares no method `add`, so
extraction of the serialized form of any Pipe — here a freshly constructed
empty one — raises a TypeError instead of reproducing the Pipe. -/
theorem extract_of_serialize_raises :
    Pipe.extract (Pipe.serialize Pipe.empty) =
      Except.error "TypeError: pipe.add is not a function" := by
  rfl

/-- C2: `addBrick` does not append. It delegates to `insertBrick(-1, ...)`
and `splice(-1, 0, brick)` inserts before the last element, so adding
brick 3 to a pipe holding bricks `[1, 2]` yields `[1, 3, 2]`, not
`[1, 2, 3]` as the method's own documentation ("Adds Bricks to the end of
the Pipe") and the claim state. -/
theorem addBrick_inserts_before_last :
    ((Pipe.mk [1, 2] none none none).addBrick [3]).bricks = [1, 3, 2] := by
  rfl

/-- C5: structural mutation does not leave the view unconstructed. The
guard `this.getView() && ...` in `insertBrick` calls `getView()`, which
creates and memoizes the view when it is null, so inserting a brick into a
fresh Pipe constructs the view as a side effect. -/
theorem insertBrick_constructs_view :
    ((Pipe.empty.insertBrick 0 [1]).view) = some { children := [1] } := by
  rfl

/-! ## Step lemmas for the branches of `setValue` -/

theorem setValue_invalid_eq (s : Setting) (v : JSValue) (sender : Option Nat)
    (h : s.validateValue v = false) :
    s.setValue v sender = ({ s with valid := false, value := v }, none) := by
  simp [Setting.setValue, h]

theorem setValue_unchanged_eq (s : Setting) (v : JSValue) (sender : Option Nat)
    (h : s.validateValue v = true) (he : s.value = s.filterValue v) :
    s.setValue v sender = ({ s with valid := true }, none) := by
  simp [Setting.setValue, h, he]

theorem setValue_changed_fst (s : Setting) (v : JSValue) (sender : Option Nat)
    (h : s.validateValue v = true) (he : ¬ s.value = s.filterValue v) :
    (s.setValue v sender).1 = { s with valid := true, value := s.filterValue v } := by
  simp only [Setting.setValue, h, Bool.true_eq_false, if_false, if_neg he]
  split <;> rfl

theorem setValue_snd_some (s : Setting) (v : JSValue) (sender : Option Nat)
    (w : JSValue) (h : (s.setValue v sender).2 = some w) :
    s.delegate.isSome = true ∧ s.delegate ≠ sender := by
  simp only [Setting.setValue] at h
  split_ifs at h with h1 h2 h3
  · rw [Bool.and_eq_true] at h3
    exact ⟨h3.1, bne_iff_ne.mp h3.2⟩

/-! ## Claim theorems: Setting value lifecycle -/

/-- C6: notification is idempotent. For a raw value that validates: when
the filtered value strictly equals the stored one, `setValue` stores no
new value and sends no notification; and a second `setValue` of the same
raw value immediately after a first one is a no-op that notifies nobody,
so the delegate hears about the change at most once, on the first call. -/
theorem setValue_notification_idempotent (s : Setting) (v : JSValue)
    (sender : Option Nat) (hval : s.validateValue v = true) :
    (s.value = s.filterValue v →
      s.setValue v sender = ({ s with valid := true }, none)) ∧
    (s.setValue v sender).1.setValue v sender = ((s.setValue v sender).1, none) := by
  refine ⟨fun heq => setValue_unchanged_eq s v sender hval heq, ?_⟩
  by_cases h1 : s.value = s.filterValue v
  · rw [setValue_unchanged_eq s v sender hval h1]
    exact setValue_unchanged_eq ({ s with valid := true }) v sender hval h1
  · rw [setValue_changed_fst s v sender hval h1]
    exact setValue_unchanged_eq
      ({ s with valid := true, value := s.filterValue v }) v sender hval rfl

/-- C6 witness: the theorem applied at a concrete Setting and value. -/
theorem setValue_notification_idempotent_witness :
    (exSetting6.value = exSetting6.filterValue (JSValue.vNum 5) →
      exSetting6.setValue (JSValue.vNum 5) none = ({ exSetting6 with valid := true }, none)) ∧
    (exSetting6.setValue (JSValue.vNum 5) none).1.setValue (JSValue.vNum 5) none =
      ((exSetting6.setValue (JSValue.vNum 5) none).1, none) :=
  setValue_notification_idempotent exSetting6 (JSValue.vNum 5) none rfl

/-- C7: sender suppression. Passing the delegate itself as `sender` means
`setValue` never invokes that delegate's `settingValueDidChange`; more
generally a notification is emitted only when a delegate is set and it is
not the same object as the sender. -/
theorem setValue_sender_suppression (s : Setting) (v : JSValue) (sender : Option Nat) :
    (s.delegate = sender → (s.setValue v sender).2 = none) ∧
    ((s.setValue v sender).2.isSome = true →
      s.delegate.isSome = true ∧ s.delegate ≠ sender) := by
  constructor
  · intro hsd
    cases h : (s.setValue v sender).2 with
    | none => rfl
    | some w =>
        obtain ⟨_, hne⟩ := setValue_snd_some s v sender w h
        exact absurd hsd hne
  · intro hs
    cases h : (s.setValue v sender).2 with
    | none => rw [h] at hs; simp at hs
    | some w => exact setValue_snd_some s v sender w h

/-- C7 witness: with the delegate as sender the delegate is not notified;
with a different sender the notification that does happen implies the
delegate differs from the sender. -/
theorem setValue_sender_suppression_witness :
    (exSetting7.setValue (JSValue.vNum 5) (some 3)).2 = none ∧
    (exSetting7.delegate.isSome = true ∧ exSetting7.delegate ≠ some 9) :=
  ⟨(setValue_sender_suppression exSetting7 (JSValue.vNum 5) (some 3)).1 rfl,
   (setValue_sender_suppression exSetting7 (JSValue.vNum 5) (some 9)).2 rfl⟩

/-- C8: a raw value that fails validation is stored as-is (no throw, no
filtering, no notification) with `valid = false`; and whenever `setValue`
leaves `valid = false`, the stored value is the rejected raw input of that
call, not the last good value. -/
theorem setValue_invalid_behaviour (s : Setting) (v : JSValue) (sender : Option Nat) :
    (s.validateValue v = false →
      s.setValue v sender = ({ s with valid := false, value := v }, none)) ∧
    ((s.setValue v sender).1.valid = false → (s.setValue v sender).1.value = v) := by
  refine ⟨fun h => setValue_invalid_eq s v sender h, fun hfalse => ?_⟩
  by_cases hval : s.validateValue v = false
  · rw [setValue_invalid_eq s v sender hval]
  · have hval2 : s.validateValue v = true := by
      revert hval; cases s.validateValue v <;> simp
    exfalso
    by_cases h1 : s.value = s.filterValue v
    · rw [setValue_unchanged_eq s v sender hval2 h1] at hfalse
      simp at hfalse
    · rw [setValue_changed_fst s v sender hval2 h1] at hfalse
      simp at hfalse

/-- C8 witness: the theorem applied at a concrete rejecting Setting. -/
theorem setValue_invalid_behaviour_witness :
    exSetting8.setValue (JSValue.vStr "abc") none =
      ({ exSetting8 with valid := false, value := JSValue.vStr "abc" }, none) ∧
    (exSetting8.setValue (JSValue.vStr "abc") none).1.value = JSValue.vStr "abc" :=
  ⟨(setValue_invalid_behaviour exSetting8 (JSValue.vStr "abc") none).1 rfl,
   (setValue_invalid_behaviour exSetting8 (JSValue.vStr "abc") none).2 rfl⟩

/-- C9: `serializeValue` raises exactly when the runtime type of the
current value is not boolean, number or string; otherwise it returns the
current value unchanged. The function reads the state and never writes
it. -/
theorem serializeValue_primitive_gate (s : Setting) :
    (s.value.isPrimitiveJS = true → s.serializeValue = Except.ok s.value) ∧
    (s.value.isPrimitiveJS = false →
      s.serializeValue = Except.error ("Generic Settings can only serialize boolean, number and string values safely. Found value type " ++ typeofJS s.value ++ ".")) := by
  cases h : s.value <;>
    simp [Setting.serializeValue, JSValue.isPrimitiveJS, typeofJS, h]

/-- C9 witness: serialization succeeds on a number and raises the unsafe
value type error on null. -/
theorem serializeValue_primitive_gate_witness :
    exSetting9a.serializeValue = Except.ok (JSValue.vNum 5) ∧
    exSetting9b.serializeValue = Except.error "Generic Settings can only serialize boolean, number and string values safely. Found value type object." :=
  ⟨(serializeValue_primitive_gate exSetting9a).1 rfl,
   (serializeValue_primitive_gate exSetting9b).2 rfl⟩

/-- C10: after `new Setting(name, spec)` the value is `spec.value` when
truthy and null otherwise (falsy defaults such as false, 0 and the empty
string are replaced by null), `valid` is true unconditionally — the
constructor never runs the supplied validator — and the delegate is
null. -/
theorem construct_initial_state (name : String) (spec : SettingSpec) :
    (truthyJS spec.value = true → (Setting.construct name spec).value = spec.value) ∧
    (truthyJS spec.value = false → (Setting.construct name spec).value = JSValue.vNull) ∧
    (Setting.construct name spec).valid = true ∧
    (Setting.construct name spec).delegate = none := by
  refine ⟨fun h => ?_, fun h => ?_, rfl, rfl⟩ <;> simp [Setting.construct, h]

/-- C10 witness: the falsy default is replaced by null, yet the state is
valid and the delegate null, although the supplied validator rejects
everything. -/
theorem construct_initial_state_witness :
    (Setting.construct "n" exSpec10).value = JSValue.vNull ∧
    (Setting.construct "n" exSpec10).valid = true ∧
    (Setting.construct "n" exSpec10).delegate = none :=
  ⟨(construct_initial_state "n" exSpec10).2.1 rfl,
   (construct_initial_state "n" exSpec10).2.2.1,
   (construct_initial_state "n" exSpec10).2.2.2⟩

/-! ## List lemmas for the removal algorithm -/

theorem keepNotIdx_all_lt : ∀ (l : List Nat) (k : Nat) (is : List Int),
    (∀ j ∈ is, j < (k : Int)) → keepNotIdx is k l = l := by
  intro l
  induction l with
  | nil => intro k is _; rfl
  | cons x xs ih =>
      intro k is h
      have hk : ¬ ((k : Int) ∈ is) := fun hm => by
        have := h _ hm; omega
      simp only [keepNotIdx, if_neg hk]
      rw [ih (k + 1) is (fun j hj => by have := h j hj; push_cast; omega)]

theorem keepNotIdx_mem_congr : ∀ (l : List Nat) (k : Nat) (is1 is2 : List Int),
    (∀ j : Int, j ∈ is1 ↔ j ∈ is2) → keepNotIdx is1 k l = keepNotIdx is2 k l := by
  intro l
  induction l with
  | nil => intro k is1 is2 _; rfl
  | cons x xs ih =>
      intro k is1 is2 h
      simp only [keepNotIdx]
      by_cases hk : (k : Int) ∈ is1
      · rw [if_pos hk, if_pos ((h _).mp hk), ih (k + 1) is1 is2 h]
      · rw [if_neg hk, if_neg (fun hm => hk ((h _).mpr hm)), ih (k + 1) is1 is2 h]

theorem keepNotIdx_eraseIdx : ∀ (l : List Nat) (k : Nat) (i : Int) (is : List Int),
    (∀ j ∈ is, j < i) → (k : Int) ≤ i → (i - (k : Int)).toNat < l.length →
    keepNotIdx is k (l.eraseIdx (i - (k : Int)).toNat) = keepNotIdx (i :: is) k l := by
  intro l
  induction l with
  | nil => intro k i is _ _ hlen; simp at hlen
  | cons x xs ih =>
      intro k i is hlt hki hlen
      by_cases hk : (k : Int) = i
      · have h0 : (i - (k : Int)).toNat = 0 := by omega
        rw [h0, List.eraseIdx_cons_zero]
        have hmem : (k : Int) ∈ i :: is := by simp [hk]
        simp only [keepNotIdx, if_pos hmem]
        rw [keepNotIdx_all_lt xs k is (fun j hj => by have := hlt j hj; omega),
          keepNotIdx_all_lt xs (k + 1) (i :: is) ?hall]
        case hall =>
          intro j hj
          rcases List.mem_cons.mp hj with hj1 | hj2
          · subst hj1; push_cast; omega
          · have := hlt j hj2; push_cast; omega
      · have hklt : (k : Int) < i := lt_of_le_of_ne hki hk
        have hpos : (i - (k : Int)).toNat = (i - ((k + 1 : Nat) : Int)).toNat + 1 := by
          push_cast; omega
        rw [hpos, List.eraseIdx_cons_succ]
        have hmemiff : ((k : Int) ∈ i :: is) ↔ ((k : Int) ∈ is) := by
          simp [List.mem_cons, hk]
        have ihx := ih (k + 1) i is hlt (by push_cast; omega)
          (by rw [List.length_cons] at hlen; push_cast at hlen ⊢; omega)
        simp only [keepNotIdx]
        by_cases hm : (k : Int) ∈ is
        · rw [if_pos hm, if_pos (hmemiff.mpr hm), ihx]
        · rw [if_neg hm, if_neg (fun hc => hm (hmemiff.mp hc)), ihx]

theorem spliceRemoveOne_eq_eraseIdx (l : List Nat) (i : Int)
    (h0 : 0 ≤ i) (hlen : i.toNat < l.length) :
    spliceRemoveOne l i = l.eraseIdx i.toNat := by
  have hs : spliceStart l.length i = i.toNat := by
    rw [spliceStart, if_neg (by omega)]
    exact Nat.min_eq_left (Nat.le_of_lt hlen)
  rw [spliceRemoveOne, List.eraseIdx_eq_take_drop_succ]
  simp [hs]

theorem removeStep_ok (p : Pipe) (i : Int)
    (h0 : 0 ≤ i) (hlen : i.toNat < p.bricks.length) :
    ∃ q, p.removeStep i = Except.ok q ∧ q.bricks = p.bricks.eraseIdx i.toNat := by
  have hget : jsGetElem p.bricks i = some (p.bricks.get ⟨i.toNat, hlen⟩) := by
    rw [jsGetElem, if_pos h0]
    simp [List.getElem?_eq_getElem hlen]
  refine ⟨_, by rw [Pipe.removeStep, hget], ?_⟩
  cases hv : ({ p with bricks := spliceRemoveOne p.bricks i } : Pipe).view <;>
    simp [Pipe.removeStep, hget, Pipe.getView, hv,
      spliceRemoveOne_eq_eraseIdx p.bricks i h0 hlen]

theorem removeLoop_ok : ∀ (is : List Int) (p : Pipe),
    List.Pairwise (fun a b => b < a) is →
    (∀ i ∈ is, 0 ≤ i ∧ i.toNat < p.bricks.length) →
    ∃ q, p.removeLoop is = Except.ok q ∧ q.bricks = keepNotIdx is 0 p.bricks := by
  intro is
  induction is with
  | nil =>
      intro p _ _
      exact ⟨p, rfl, (keepNotIdx_all_lt p.bricks 0 [] (by simp)).symm⟩
  | cons i rest ih =>
      intro p hpw hrange
      obtain ⟨h0, hlen⟩ := hrange i (List.mem_cons_self i rest)
      obtain ⟨q1, hq1, hb1⟩ := removeStep_ok p i h0 hlen
      have hrest_lt : ∀ j ∈ rest, j < i := (List.pairwise_cons.mp hpw).1
      have hrange1 : ∀ j ∈ rest, 0 ≤ j ∧ j.toNat < q1.bricks.length := by
        intro j hj
        obtain ⟨hj0, _⟩ := hrange j (List.mem_cons_of_mem i hj)
        refine ⟨hj0, ?_⟩
        rw [hb1, List.length_eraseIdx_of_lt hlen]
        have := hrest_lt j hj
        omega
      obtain ⟨q, hq, hbq⟩ := ih q1 (List.pairwise_cons.mp hpw).2 hrange1
      refine ⟨q, ?_, ?_⟩
      · rw [Pipe.removeLoop, hq1]
        exact hq
      · rw [hbq, hb1]
        have hmain := keepNotIdx_eraseIdx p.bricks 0 i rest hrest_lt
          (by omega) (by simpa using hlen)
        simpa using hmain

instance relDescTotal : IsTotal Int (fun a b => b ≤ a) := ⟨fun a b => le_total b a⟩

instance relDescTrans : IsTrans Int (fun a b => b ≤ a) :=
  ⟨fun _ _ _ hab hbc => le_trans hbc hab⟩

/-! ## Claim theorems: removeBrick -/

/-- C3 counterexample: `removeBrick` does raise. On a 3-brick pipe the
argument list `(99999, existingBrick, -1)` resolves to indexes
`[99999, 1]` after the `-1` filter; index 99999 survives the filter, and
`this._bricks[99999]` is undefined, so `brick.setPipe(null)` raises a
TypeError instead of the out-of-range index being silently dropped. -/
theorem removeBrick_out_of_range_raises :
    (Pipe.mk [1, 2, 3] none none none).removeBrick
      [BrickOrIndex.index 99999, BrickOrIndex.brick 2, BrickOrIndex.index (-1)] =
      Except.error "TypeError: Cannot read property setPipe of undefined" := by
  rfl

/-- C3 amended: `removeBrick` silently drops only Brick references that
are not present and literal `-1` indexes (both become `-1` and are
filtered); when the surviving resolved indexes are pairwise distinct and
each addresses a current brick, no error is raised and exactly the bricks
at those indexes are removed — the rest keep their relative order —
regardless of argument order (the indexes are processed in descending
order). Indexes that are out of range, or negative other than `-1`, make
the call raise a TypeError instead of being dropped. -/
theorem removeBrick_valid_indexes (p : Pipe) (elements : List BrickOrIndex)
    (hnd : ((elements.map p.resolveElement).filter (fun i => i != -1)).Nodup)
    (hrange : ∀ i ∈ (elements.map p.resolveElement).filter (fun i => i != -1),
        0 ≤ i ∧ i.toNat < p.bricks.length) :
    (p.removeBrick elements).map Pipe.bricks =
      Except.ok (keepNotIdx
        ((elements.map p.resolveElement).filter (fun i => i != -1)) 0 p.bricks) := by
  have hperm : List.Perm
      (sortDesc ((elements.map p.resolveElement).filter (fun i => i != -1)))
      ((elements.map p.resolveElement).filter (fun i => i != -1)) :=
    List.perm_insertionSort _ _
  have hsorted : List.Sorted (fun a b : Int => b ≤ a)
      (sortDesc ((elements.map p.resolveElement).filter (fun i => i != -1))) :=
    List.sorted_insertionSort _ _
  have hnd2 : (sortDesc ((elements.map p.resolveElement).filter (fun i => i != -1))).Nodup :=
    hperm.nodup_iff.mpr hnd
  have hpw : List.Pairwise (fun a b : Int => b < a)
      (sortDesc ((elements.map p.resolveElement).filter (fun i => i != -1))) :=
    (List.Pairwise.and hsorted hnd2).imp
      (fun h => lt_of_le_of_ne h.1 (Ne.symm h.2))
  have hrange2 : ∀ i ∈ sortDesc ((elements.map p.resolveElement).filter (fun i => i != -1)),
      0 ≤ i ∧ i.toNat < p.bricks.length :=
    fun i hi => hrange i (hperm.mem_iff.mp hi)
  obtain ⟨q, hq, hbq⟩ := removeLoop_ok _ p hpw hrange2
  rw [Pipe.removeBrick, hq]
  rw [Except.map, hbq]
  exact congrArg Except.ok
    (keepNotIdx_mem_congr p.bricks 0 _ _ (fun j => hperm.mem_iff))

/-- C3 witness: on a pipe `[5, 6, 7]`, removing brick 6 (resolved to
index 1) together with index 0 removes exactly those two and keeps
brick 7. -/
theorem removeBrick_valid_indexes_witness :
    ((Pipe.mk [5, 6, 7] none none none).removeBrick
        [BrickOrIndex.brick 6, BrickOrIndex.index 0]).map Pipe.bricks =
      Except.ok [7] :=
  removeBrick_valid_indexes (Pipe.mk [5, 6, 7] none none none)
    [BrickOrIndex.brick 6, BrickOrIndex.index 0] (by decide) (by decide)

/-! ## View alignment lemmas -/

theorem addSubviewStep_bricks (p : Pipe) (b : Nat) :
    (p.addSubviewStep b).bricks = p.bricks := by
  cases hv : p.view <;> simp [Pipe.addSubviewStep, Pipe.getView, hv]

theorem addSubviewStep_children (p : Pipe) (b : Nat) :
    (p.addSubviewStep b).viewChildren = p.viewChildren ++ [b] := by
  cases hv : p.view <;>
    simp [Pipe.addSubviewStep, Pipe.getView, Pipe.viewChildren,
      PipeView.addSubview, Brick.getViewId, hv]

theorem foldl_addSubviewStep : ∀ (bs : List Nat) (p : Pipe),
    (bs.foldl Pipe.addSubviewStep p).bricks = p.bricks ∧
    (bs.foldl Pipe.addSubviewStep p).viewChildren = p.viewChildren ++ bs := by
  intro bs
  induction bs with
  | nil => intro p; simp
  | cons b bs ih =>
      intro p
      have h := ih (p.addSubviewStep b)
      rw [List.foldl_cons]
      refine ⟨h.1.trans (addSubviewStep_bricks p b), h.2.trans ?_⟩
      rw [addSubviewStep_children p b, List.append_assoc]
      rfl

theorem erase_eq_eraseIdx_of_nodup : ∀ (l : List Nat) (i : Nat) (b : Nat)
    (h : i < l.length), l.Nodup → l.get ⟨i, h⟩ = b → l.erase b = l.eraseIdx i := by
  intro l
  induction l with
  | nil => intro i b h; simp at h
  | cons x xs ih =>
      intro i b h hnd hget
      rcases i with _ | i
      · simp at hget
        subst hget
        rw [List.eraseIdx_cons_zero, List.erase_cons_head]
      · simp at hget
        have hi : i < xs.length := by simpa using h
        have hbxs : b ∈ xs := by
          rw [← hget]
          exact List.getElem_mem hi
        have hxb : x ≠ b := fun hxb => (List.nodup_cons.mp hnd).1 (hxb ▸ hbxs)
        rw [List.eraseIdx_cons_succ, List.erase_cons_tail (by simpa using hxb)]
        exact congrArg (x :: ·)
          (ih i b hi (List.nodup_cons.mp hnd).2 (by simpa using hget))

theorem removeStep_aligned (p q : Pipe) (i : Int)
    (hok : p.removeStep i = Except.ok q)
    (ha : p.viewChildren = p.bricks) (hnd : p.bricks.Nodup) :
    q.viewChildren = q.bricks ∧ q.bricks.Nodup := by
  rw [Pipe.removeStep] at hok
  cases hget : jsGetElem p.bricks i with
  | none => rw [hget] at hok; cases hok
  | some b =>
      rw [hget] at hok
      have hsome := hget
      rw [jsGetElem] at hsome
      split_ifs at hsome with h0
      obtain ⟨hlen, hb⟩ := List.getElem?_eq_some_iff.mp hsome
      cases hv : p.view with
      | none =>
          exfalso
          simp only [Pipe.viewChildren, hv] at ha
          rw [← ha] at hlen
          simp at hlen
      | some v =>
          simp only [Pipe.viewChildren, hv] at ha
          simp only [Pipe.getView, hv] at hok
          injection hok with hq
          subst hq
          constructor
          · simp only [Pipe.viewChildren, PipeView.removeSubview, Brick.getViewId,
              spliceRemoveOne_eq_eraseIdx p.bricks i h0 hlen]
            rw [ha]
            exact erase_eq_eraseIdx_of_nodup p.bricks i.toNat b hlen hnd (by simpa using hb)
          · simp only [spliceRemoveOne_eq_eraseIdx p.bricks i h0 hlen]
            exact (List.eraseIdx_sublist p.bricks i.toNat).nodup hnd

theorem removeLoop_aligned : ∀ (is : List Int) (p q : Pipe),
    p.removeLoop is = Except.ok q →
    p.viewChildren = p.bricks → p.bricks.Nodup →
    q.viewChildren = q.bricks := by
  intro is
  induction is with
  | nil =>
      intro p q h ha _
      rw [Pipe.removeLoop] at h
      injection h with h
      exact h ▸ ha
  | cons i rest ih =>
      intro p q h ha hnd
      rw [Pipe.removeLoop] at h
      cases hs : p.removeStep i with
      | error e => rw [hs] at h; cases h
      | ok p1 =>
          rw [hs] at h
          obtain ⟨ha1, hnd1⟩ := removeStep_aligned p p1 i hs ha hnd
          exact ih p1 q h ha1 hnd1

/-! ## Claim theorems: view alignment -/

/-- C4 counterexample: the view child list is not kept index-aligned with
the brick sequence. Inserting brick 10 and then brick 20, both at index 0,
gives bricks `[20, 10]` but view children `[10, 20]`: `addSubview` appends
the child view at the end, it does not place it at the insertion index. -/
theorem insertBrick_interior_misaligns_view :
    ((Pipe.empty.insertBrick 0 [10]).insertBrick 0 [20]).bricks = [20, 10] ∧
    ((Pipe.empty.insertBrick 0 [10]).insertBrick 0 [20]).viewChildren = [10, 20] ∧
    ((Pipe.empty.insertBrick 0 [10]).insertBrick 0 [20]).viewChildren ≠
      ((Pipe.empty.insertBrick 0 [10]).insertBrick 0 [20]).bricks := by
  refine ⟨rfl, rfl, by decide⟩

/-- C4 amended: child views are appended at the end of the view child
list, so alignment is preserved exactly by tail operations: starting from
a pipe whose view children mirror its bricks, an `insertBrick` whose
normalized splice position is the tail keeps the child list index-aligned,
and a successful `removeBrick` on a duplicate-free pipe keeps it aligned
as well; an insertion at an interior index breaks alignment (see the
counterexample). -/
theorem view_alignment_amended (p : Pipe) (ha : p.viewChildren = p.bricks) :
    (∀ (index : Int) (bs : List Nat),
        spliceStart p.bricks.length index = p.bricks.length →
        (p.insertBrick index bs).viewChildren = (p.insertBrick index bs).bricks) ∧
    (∀ (elements : List BrickOrIndex) (q : Pipe),
        p.bricks.Nodup → p.removeBrick elements = Except.ok q →
        q.viewChildren = q.bricks) := by
  constructor
  · intro index bs hidx
    rw [Pipe.insertBrick]
    have h := foldl_addSubviewStep bs { p with bricks := spliceInsert p.bricks index bs }
    rw [h.1, h.2]
    have hvc : ({ p with bricks := spliceInsert p.bricks index bs } : Pipe).viewChildren =
        p.viewChildren := rfl
    rw [hvc, spliceInsert, hidx, ha]
    simp
  · intro elements q hnd hok
    rw [Pipe.removeBrick] at hok
    exact removeLoop_aligned _ p q hok ha hnd

/-- C4 witness: on an aligned two-brick pipe, a tail insertion at index 2
stays aligned, and removing index 0 yields the aligned one-brick pipe. -/
theorem view_alignment_amended_witness :
    ((Pipe.mk [1, 2] none none (some (PipeView.mk [1, 2]))).insertBrick 2 [3]).viewChildren =
      ((Pipe.mk [1, 2] none none (some (PipeView.mk [1, 2]))).insertBrick 2 [3]).bricks ∧
    (Pipe.mk [2] none none (some (PipeView.mk [2]))).viewChildren =
      (Pipe.mk [2] none none (some (PipeView.mk [2]))).bricks :=
  ⟨(view_alignment_amended (Pipe.mk [1, 2] none none (some (PipeView.mk [1, 2]))) rfl).1
      2 [3] rfl,
   (view_alignment_amended (Pipe.mk [1, 2] none none (some (PipeView.mk [1, 2]))) rfl).2
      [BrickOrIndex.index 0] (Pipe.mk [2] none none (some (PipeView.mk [2])))
      (by decide) rfl⟩
